import Mathlib

/-!
Shallow embedding of the account rotation scheduler in
`src/main/proxy/accountPool.ts` (class `AccountPool`).

Modelling conventions, chosen to match the JavaScript semantics of the
source:
* Timestamps (`Date.now()` values, cooldown deadlines, …) are `Int`.
* Optional numeric fields (`cooldownUntil`, `autoRecoverAt`, `expiresAt`)
  are `Int` with `0` encoding `undefined`: every read in the source either
  normalises with `|| 0` or tests JavaScript truthiness (`if (x)`), under
  which `undefined` and `0` are observationally identical; truthiness of a
  number is modelled as `≠ 0`.
* `errorCount`/`requestCount` are `Nat` (every read normalises `|| 0`).
* `isAvailable` is `Bool`; every account stored through the pool API has a
  definite boolean there, and the source reads it as `isAvailable !== false`.
* The two `Map`s keyed by id are association lists in insertion order
  (JavaScript `Map` iterates in insertion order and `set` on an existing
  key keeps its position).
* `isAccountAvailable` is side-effecting in the source (it writes the
  auto-recovered record back into the map); it is modelled at the account
  level as `Bool × Option ProxyAccount` where `some` is the record written
  back, and at the pool level by threading the pool state.
* `getNextAccount` reads `accountList[this.currentIndex]` before reducing
  the index modulo the length; when the index is out of range the JS value
  is `undefined` and the subsequent property access in
  `isAccountAvailable` throws a `TypeError`.  This is modelled with
  `Except String`, `Except.error` standing for the thrown exception.
-/

/-- `ErrorType` from accountPool.ts. -/
inductive ErrorType where
  | quota
  | auth
  | network
  | server
  | unknown
deriving DecidableEq, Repr

/-- `AccountPoolConfig` from accountPool.ts. -/
structure AccountPoolConfig where
  cooldownMs : Int
  maxErrorCount : Nat
  quotaResetMs : Int
  networkCooldownMs : Int
  serverCooldownMs : Int
  autoRecoverMs : Int
  expiryGracePeriodMs : Int
deriving DecidableEq, Repr

/-- `DEFAULT_CONFIG` from accountPool.ts. -/
def DEFAULT_CONFIG : AccountPoolConfig where
  cooldownMs := 60000
  maxErrorCount := 3
  quotaResetMs := 3600000
  networkCooldownMs := 10000
  serverCooldownMs := 30000
  autoRecoverMs := 300000
  expiryGracePeriodMs := 60000

/-- The rotation-relevant fields of `ProxyAccount` (from types.ts, as used
by accountPool.ts).  `0` in `cooldownUntil`/`autoRecoverAt`/`expiresAt`
encodes `undefined`. -/
structure ProxyAccount where
  id : String
  isAvailable : Bool
  errorCount : Nat
  cooldownUntil : Int
  autoRecoverAt : Int
  expiresAt : Int
  requestCount : Nat
  lastUsed : Int
deriving DecidableEq, Repr

/-- `AccountStats` from types.ts, as used by accountPool.ts. -/
structure AccountStats where
  requests : Nat
  tokens : Int
  inputTokens : Int
  outputTokens : Int
  errors : Nat
  lastUsed : Int
  avgResponseTime : Int
  totalResponseTime : Int
deriving DecidableEq, Repr

/-- The state of an `AccountPool` instance: the two insertion-ordered maps,
the rotation cursor and the configuration. -/
structure AccountPool where
  accounts : List ProxyAccount
  accountStats : List (String × AccountStats)
  currentIndex : Nat
  config : AccountPoolConfig
deriving DecidableEq, Repr

namespace AccountPool

/-- `Map.get` on the accounts map: first (only) entry with this id. -/
def mapGet (l : List ProxyAccount) (accountId : String) : Option ProxyAccount :=
  l.find? (fun a => a.id = accountId)

/-- `Map.set` on the accounts map: replace in place when the key exists
(JavaScript `Map.set` keeps insertion order), append otherwise. -/
def mapSet (l : List ProxyAccount) (a : ProxyAccount) : List ProxyAccount :=
  if l.any (fun b => b.id = a.id) then
    l.map (fun b => if b.id = a.id then a else b)
  else
    l ++ [a]

/-- `Map.get` on the stats map. -/
def statsGet (l : List (String × AccountStats)) (accountId : String) :
    Option AccountStats :=
  (l.find? (fun s => s.1 = accountId)).map Prod.snd

/-- `Map.set` on the stats map. -/
def statsSet (l : List (String × AccountStats)) (accountId : String)
    (st : AccountStats) : List (String × AccountStats) :=
  if l.any (fun s => s.1 = accountId) then
    l.map (fun s => if s.1 = accountId then (accountId, st) else s)
  else
    l ++ [(accountId, st)]

/-- The pool produced by `new AccountPool(config)`. -/
def empty (config : AccountPoolConfig) : AccountPool :=
  { accounts := [], accountStats := [], currentIndex := 0, config := config }

/-- `addAccount`: inserts/overwrites the record with the rotation fields
reset, and a zeroed stats record. -/
def addAccount (p : AccountPool) (account : ProxyAccount) : AccountPool :=
  { p with
    accounts := mapSet p.accounts
      { account with
        isAvailable := true
        requestCount := 0
        errorCount := 0
        lastUsed := 0 }
    accountStats := statsSet p.accountStats account.id
      { requests := 0, tokens := 0, inputTokens := 0, outputTokens := 0
        errors := 0, lastUsed := 0, avgResponseTime := 0
        totalResponseTime := 0 } }

/-- `removeAccount`: deletes both records; the cursor is NOT touched. -/
def removeAccount (p : AccountPool) (accountId : String) : AccountPool :=
  { p with
    accounts := p.accounts.filter (fun a => ¬ a.id = accountId)
    accountStats := p.accountStats.filter (fun s => ¬ s.1 = accountId) }

/-- The body of `isAccountAvailable(account, now)` at the account level.
Returns the boolean result and, in the auto-recovery branch, `some` of the
record the source writes back into the map (`none` when no write occurs). -/
def isAccountAvailableAcc (config : AccountPoolConfig) (account : ProxyAccount)
    (now : Int) : Bool × Option ProxyAccount :=
  if account.autoRecoverAt ≠ 0 ∧ account.autoRecoverAt ≤ now then
    (true, some { account with
      isAvailable := true
      autoRecoverAt := 0
      errorCount := 0
      cooldownUntil := 0 })
  else if account.autoRecoverAt ≠ 0 ∧ account.autoRecoverAt > now then
    (false, none)
  else if account.cooldownUntil ≠ 0 ∧ account.cooldownUntil > now then
    (false, none)
  else if account.errorCount ≥ config.maxErrorCount then
    (false, none)
  else if account.expiresAt ≠ 0 ∧ account.expiresAt + config.expiryGracePeriodMs < now then
    (false, none)
  else
    (account.isAvailable, none)

/-- `isAccountAvailable` at the pool level: the auto-recovery branch writes
the recovered record back into the accounts map. -/
def isAccountAvailable (p : AccountPool) (account : ProxyAccount) (now : Int) :
    Bool × AccountPool :=
  match isAccountAvailableAcc p.config account now with
  | (ok, some a) => (ok, { p with accounts := mapSet p.accounts a })
  | (ok, none) => (ok, p)

/-- One iteration of the `for` loop of `getAccountWithShortestCooldown`:
the accumulator is `bestAccount` paired with `shortestWait`, `none` playing
the role of the initial `shortestWait = Infinity` (the first account always
replaces it, since every wait is finite). -/
def shortestStep (now : Int) (best : Option (ProxyAccount × Int))
    (account : ProxyAccount) : Option (ProxyAccount × Int) :=
  let wait := max 0 (account.cooldownUntil - now)
  match best with
  | none => some (account, wait)
  | some (b, w) => if wait < w then some (account, wait) else some (b, w)

/-- `getAccountWithShortestCooldown(accounts, now)`: first account with
strictly smallest `max(0, cooldownUntil - now)`. -/
def getAccountWithShortestCooldown (accounts : List ProxyAccount) (now : Int) :
    Option ProxyAccount :=
  (accounts.foldl (shortestStep now) none).map Prod.fst

/-- The `while (attempts < maxAttempts)` loop of `getNextAccount`;
`remaining = maxAttempts - attempts`.  An out-of-range cursor makes
`accountList[this.currentIndex]` equal `undefined` in JS and the next
property access throws: modelled by `Except.error`. -/
def getNextAccountLoop (accountList : List ProxyAccount) (now : Int) :
    Nat → AccountPool → Except String (Option ProxyAccount × AccountPool)
  | 0, p => Except.ok (getAccountWithShortestCooldown accountList now, p)
  | remaining + 1, p =>
    match accountList.get? p.currentIndex with
    | none => Except.error "TypeError: cannot read properties of undefined"
    | some account =>
      let p1 := { p with currentIndex := (p.currentIndex + 1) % accountList.length }
      match isAccountAvailable p1 account now with
      | (true, p2) => Except.ok (some account, p2)
      | (false, p2) => getNextAccountLoop accountList now remaining p2

/-- `getNextAccount()`: round-robin scan with shortest-cooldown fallback. -/
def getNextAccount (p : AccountPool) (now : Int) :
    Except String (Option ProxyAccount × AccountPool) :=
  let accountList := p.accounts
  if accountList.length = 0 then
    Except.ok (none, p)
  else
    getNextAccountLoop accountList now accountList.length p

/-- The `for (const account of accountList)` loop of
`getNextAvailableAccount`; the availability check runs only when the id
differs from the excluded one (short-circuit `&&`). -/
def getNextAvailableLoop (excludeAccountId : String) (now : Int) :
    List ProxyAccount → AccountPool → Option ProxyAccount × AccountPool
  | [], p => (none, p)
  | account :: rest, p =>
    if account.id ≠ excludeAccountId then
      match isAccountAvailable p account now with
      | (true, p1) => (some account, p1)
      | (false, p1) => getNextAvailableLoop excludeAccountId now rest p1
    else
      getNextAvailableLoop excludeAccountId now rest p

/-- `getNextAvailableAccount(excludeAccountId)`. -/
def getNextAvailableAccount (p : AccountPool) (excludeAccountId : String)
    (now : Int) : Option ProxyAccount × AccountPool :=
  let accountList := p.accounts
  if accountList.length ≤ 1 then
    (none, p)
  else
    match getNextAvailableLoop excludeAccountId now accountList p with
    | (some a, p1) => (some a, p1)
    | (none, p1) =>
      let otherAccounts := accountList.filter (fun a => ¬ a.id = excludeAccountId)
      (getAccountWithShortestCooldown otherAccounts now, p1)

/-- `recordSuccess(accountId, tokens)`; both `Date.now()` reads are the
same `now`. -/
def recordSuccess (p : AccountPool) (accountId : String) (tokens : Int)
    (now : Int) : AccountPool :=
  let p1 :=
    match mapGet p.accounts accountId with
    | some account =>
      let account1 :=
        { account with
          requestCount := account.requestCount + 1
          errorCount := 0
          lastUsed := now
          isAvailable := true }
      { p with accounts := mapSet p.accounts account1 }
    | none => p
  match statsGet p1.accountStats accountId with
  | some stats =>
    let stats1 :=
      { stats with
        requests := stats.requests + 1
        tokens := stats.tokens + tokens
        lastUsed := now }
    { p1 with accountStats := statsSet p1.accountStats accountId stats1 }
  | none => p1

/-- The `switch (errorType)` of `recordError`, acting on the local
variables `(errorCount, cooldownUntil, autoRecoverAt, isAvailable)`. -/
def recordErrorSwitch (config : AccountPoolConfig) (errorType : ErrorType)
    (now : Int) (errorCount : Nat) (cooldownUntil autoRecoverAt : Int)
    (isAvailable : Bool) : Nat × Int × Int × Bool :=
  match errorType with
  | .quota =>
    (errorCount, now + config.quotaResetMs, autoRecoverAt, isAvailable)
  | .auth =>
    (errorCount, cooldownUntil, now + config.autoRecoverMs, false)
  | .network =>
    (errorCount, now + config.networkCooldownMs, autoRecoverAt, isAvailable)
  | .server =>
    (errorCount + 1, now + config.serverCooldownMs, autoRecoverAt, isAvailable)
  | .unknown =>
    (errorCount + 1,
     if errorCount + 1 ≥ config.maxErrorCount then now + config.cooldownMs
     else cooldownUntil,
     autoRecoverAt, isAvailable)

/-- `recordError(accountId, errorType)`: no-op on unknown id, otherwise
applies the classification policy and updates the stats record. -/
def recordError (p : AccountPool) (accountId : String) (errorType : ErrorType)
    (now : Int) : AccountPool :=
  match mapGet p.accounts accountId with
  | none => p
  | some account =>
    let r := recordErrorSwitch p.config errorType now account.errorCount
      account.cooldownUntil account.autoRecoverAt account.isAvailable
    let account1 :=
      { account with
        errorCount := r.1
        cooldownUntil := r.2.1
        autoRecoverAt := r.2.2.1
        isAvailable := r.2.2.2
        lastUsed := now }
    let p1 := { p with accounts := mapSet p.accounts account1 }
    match statsGet p1.accountStats accountId with
    | some stats =>
      let stats1 := { stats with errors := stats.errors + 1, lastUsed := now }
      { p1 with accountStats := statsSet p1.accountStats accountId stats1 }
    | none => p1

/-- The record returned by `getAccountDiagnostics`. -/
structure AccountDiagnostics where
  id : String
  isAvailable : Bool
  errorCount : Nat
  cooldownUntil : Int
  autoRecoverAt : Int
  expiresAt : Int
  isCurrentlyAvailable : Bool
  cooldownRemaining : Int
  autoRecoverRemaining : Int
  tokenExpiresIn : Option Int
deriving DecidableEq, Repr

/-- `getAccountDiagnostics(accountId)`: the embedded call to
`isAccountAvailable` threads the pool state (it can auto-recover). -/
def getAccountDiagnostics (p : AccountPool) (accountId : String) (now : Int) :
    Option AccountDiagnostics × AccountPool :=
  match mapGet p.accounts accountId with
  | none => (none, p)
  | some account =>
    match isAccountAvailable p account now with
    | (avail, p1) =>
      (some
        { id := account.id
          isAvailable := account.isAvailable
          errorCount := account.errorCount
          cooldownUntil := account.cooldownUntil
          autoRecoverAt := account.autoRecoverAt
          expiresAt := account.expiresAt
          isCurrentlyAvailable := avail
          cooldownRemaining :=
            if account.cooldownUntil ≠ 0 then max 0 (account.cooldownUntil - now) else 0
          autoRecoverRemaining :=
            if account.autoRecoverAt ≠ 0 then max 0 (account.autoRecoverAt - now) else 0
          tokenExpiresIn :=
            if account.expiresAt ≠ 0 then some (account.expiresAt - now) else none },
       p1)

/-- `n` consecutive `getNextAccount()` calls at the same clock reading,
collecting the returned accounts in call order (a thrown exception aborts
the sequence). -/
def selectMany (now : Int) : Nat → AccountPool →
    Except String (List (Option ProxyAccount) × AccountPool)
  | 0, p => Except.ok ([], p)
  | n + 1, p =>
    match getNextAccount p now with
    | .error e => .error e
    | .ok (r, p1) =>
      match selectMany now n p1 with
      | .error e => .error e
      | .ok (rs, p2) => .ok (r :: rs, p2)

/-- A freshly registered account record with no credential expiry: every
rotation field in its initial state. -/
def freshAccount (i : String) : ProxyAccount :=
  { id := i, isAvailable := true, errorCount := 0, cooldownUntil := 0
    autoRecoverAt := 0, expiresAt := 0, requestCount := 0, lastUsed := 0 }

/-- Scenario pool for the out-of-range-cursor run of `getNextAccount` with
two accounts: register A and B. -/
def c1poolA : AccountPool :=
  addAccount (addAccount (empty DEFAULT_CONFIG) (freshAccount "A"))
    (freshAccount "B")

/-- One selection on `c1poolA` (returns A and moves the cursor to 1). -/
def c1poolB : AccountPool :=
  match getNextAccount c1poolA 1000 with
  | .ok (_, p) => p
  | .error _ => c1poolA

/-- Remove B while the cursor is 1: the cursor now equals the length of
the remaining one-element list. -/
def c1poolC : AccountPool := removeAccount c1poolB "B"

/-- Demonstration pool for selection on a non-empty pool with an in-range
cursor: two fresh accounts, cursor 0. -/
def c1demo : AccountPool :=
  addAccount (addAccount (empty DEFAULT_CONFIG) (freshAccount "D"))
    (freshAccount "E")

/-- Scenario pool for the stale-cursor crash with three accounts. -/
def c3pool0 : AccountPool :=
  addAccount
    (addAccount (addAccount (empty DEFAULT_CONFIG) (freshAccount "A"))
      (freshAccount "B"))
    (freshAccount "C")

/-- Two selections on `c3pool0` (returning A then B, cursor ends at 2). -/
def c3pool2 : AccountPool :=
  match getNextAccount c3pool0 1000 with
  | .ok (_, p1) =>
    match getNextAccount p1 1000 with
    | .ok (_, p2) => p2
    | .error _ => p1
  | .error _ => c3pool0

/-- Remove C while the cursor is 2: the two-element list is now shorter
than the cursor. -/
def c3pool3 : AccountPool := removeAccount c3pool2 "C"

/-- Counterexample pool for the cooldown-expiry claim: one fresh account. -/
def c2pool0 : AccountPool := addAccount (empty DEFAULT_CONFIG) (freshAccount "a")

/-- Three consecutive `unknown` errors on that account (at 1000, 2000,
3000): `errorCount` reaches 3 and `cooldownUntil` becomes 63000. -/
def c2pool3 : AccountPool :=
  recordError
    (recordError (recordError c2pool0 "a" ErrorType.unknown 1000)
      "a" ErrorType.unknown 2000)
    "a" ErrorType.unknown 3000

/-- Counterexample pool for the diagnostics claim: one account that just
took an `auth` error at time 1, so `autoRecoverAt = 300001`. -/
def c9pool : AccountPool :=
  recordError (addAccount (empty DEFAULT_CONFIG) (freshAccount "b"))
    "b" ErrorType.auth 1

/-- Witness pool for round-robin fairness: two fresh accounts. -/
def c4pool : AccountPool :=
  addAccount (addAccount (empty DEFAULT_CONFIG) (freshAccount "A"))
    (freshAccount "B")

/-- Witness pool for the shortest-cooldown fallback: `x` is cooling until
1100 and `y` has no cooldown but `errorCount = 3`; at `now = 1000` neither
passes the availability predicate. -/
def c10pool : AccountPool :=
  { empty DEFAULT_CONFIG with
    accounts :=
      [{ freshAccount "x" with cooldownUntil := 1100 },
       { freshAccount "y" with errorCount := 3 }] }

end AccountPool

namespace AccountPool

/-- `Map.set` then `Map.get` at the written key yields the written record. -/
theorem mapGet_mapSet_self (l : List ProxyAccount) (a : ProxyAccount) :
    mapGet (mapSet l a) a.id = some a := by
  induction l with
  | nil => simp [mapGet, mapSet]
  | cons b t ih =>
    by_cases hb : b.id = a.id
    · simp [mapSet, mapGet, List.any_cons, hb]
    · have hstep : mapSet (b :: t) a = b :: mapSet t a := by
        by_cases ht : t.any (fun x => x.id = a.id)
        · simp [mapSet, List.any_cons, hb, ht]
        · simp [mapSet, List.any_cons, hb, ht]
      rw [hstep]
      simpa [mapGet, List.find?_cons, hb] using ih

/-- A successful `Map.get` returns a record carrying the looked-up id. -/
theorem mapGet_id {l : List ProxyAccount} {i : String} {a : ProxyAccount}
    (h : mapGet l i = some a) : a.id = i := by
  have := List.find?_some h
  simpa using this

/-- When no auto-recovery is due the predicate performs no write. -/
theorem availAcc_not_due_none (config : AccountPoolConfig) (a : ProxyAccount)
    (now : Int) (h : ¬ (a.autoRecoverAt ≠ 0 ∧ a.autoRecoverAt ≤ now)) :
    (isAccountAvailableAcc config a now).2 = none := by
  unfold isAccountAvailableAcc
  rw [if_neg h]
  split
  · rfl
  · split
    · rfl
    · split
      · rfl
      · split
        · rfl
        · rfl

/-- When the availability predicate answers `false` it performs no write. -/
theorem availAcc_false_none (config : AccountPoolConfig) (a : ProxyAccount)
    (now : Int) (h : (isAccountAvailableAcc config a now).1 = false) :
    (isAccountAvailableAcc config a now).2 = none := by
  by_cases h1 : a.autoRecoverAt ≠ 0 ∧ a.autoRecoverAt ≤ now
  · exfalso
    unfold isAccountAvailableAcc at h
    rw [if_pos h1] at h
    simp at h
  · exact availAcc_not_due_none config a now h1

/-- Pool-level availability on an account the predicate rejects leaves the
pool untouched. -/
theorem isAccountAvailable_of_acc_false (p : AccountPool) (a : ProxyAccount)
    (now : Int) (h : (isAccountAvailableAcc p.config a now).1 = false) :
    isAccountAvailable p a now = (false, p) := by
  have h2 := availAcc_false_none p.config a now h
  unfold isAccountAvailable
  rcases hv : isAccountAvailableAcc p.config a now with ⟨b, o⟩
  rw [hv] at h h2
  simp at h h2
  subst h; subst h2
  rfl

/-- Pool-level availability on an account the predicate accepts without
recovery leaves the pool untouched. -/
theorem isAccountAvailable_of_acc_true_none (p : AccountPool)
    (a : ProxyAccount) (now : Int)
    (h : isAccountAvailableAcc p.config a now = (true, none)) :
    isAccountAvailable p a now = (true, p) := by
  unfold isAccountAvailable
  rw [h]

/-- The pool-level availability check never moves the rotation cursor. -/
theorem isAccountAvailable_currentIndex (p : AccountPool) (a : ProxyAccount)
    (now : Int) : (isAccountAvailable p a now).2.currentIndex = p.currentIndex := by
  unfold isAccountAvailable
  rcases hv : isAccountAvailableAcc p.config a now with ⟨b, o⟩
  cases o <;> rfl

/-- The pool-level availability check never changes the configuration. -/
theorem isAccountAvailable_config (p : AccountPool) (a : ProxyAccount)
    (now : Int) : (isAccountAvailable p a now).2.config = p.config := by
  unfold isAccountAvailable
  rcases hv : isAccountAvailableAcc p.config a now with ⟨b, o⟩
  cases o <;> rfl

/-- A fully healthy account passes the availability predicate with no
write-back. -/
theorem availAcc_fresh (config : AccountPoolConfig) (a : ProxyAccount)
    (now : Int) (h1 : a.autoRecoverAt = 0) (h2 : a.cooldownUntil = 0)
    (h3 : a.errorCount < config.maxErrorCount)
    (h4 : a.expiresAt = 0 ∨ now ≤ a.expiresAt + config.expiryGracePeriodMs)
    (h5 : a.isAvailable = true) :
    isAccountAvailableAcc config a now = (true, none) := by
  unfold isAccountAvailableAcc
  rw [if_neg (by simp [h1]), if_neg (by simp [h1]), if_neg (by simp [h2]),
    if_neg (by omega)]
  rcases h4 with h4 | h4
  · rw [if_neg (by simp [h4]), h5]
  · rw [if_neg (by omega), h5]

end AccountPool

namespace AccountPool

/-- The auto-recovery branch of the availability predicate: due deadline
means available, with the reset record written back. -/
theorem availAcc_due (config : AccountPoolConfig) (a : ProxyAccount)
    (now : Int) (h0 : a.autoRecoverAt ≠ 0) (h1 : a.autoRecoverAt ≤ now) :
    isAccountAvailableAcc config a now =
      (true, some { a with
        isAvailable := true
        autoRecoverAt := 0
        errorCount := 0
        cooldownUntil := 0 }) := by
  unfold isAccountAvailableAcc
  rw [if_pos ⟨h0, h1⟩]

/-- A pending (unexpired) auto-recovery deadline vetoes availability. -/
theorem availAcc_pending (config : AccountPoolConfig) (a : ProxyAccount)
    (now : Int) (h0 : a.autoRecoverAt ≠ 0) (h1 : now < a.autoRecoverAt) :
    isAccountAvailableAcc config a now = (false, none) := by
  unfold isAccountAvailableAcc
  rw [if_neg (by rintro ⟨hx, hle⟩; omega), if_pos ⟨h0, h1⟩]

/-- With no auto-recovery deadline and the error counter at or above the
maximum, the predicate answers `false` at every time. -/
theorem availAcc_errorLimited (config : AccountPoolConfig) (a : ProxyAccount)
    (t : Int) (h0 : a.autoRecoverAt = 0)
    (h1 : a.errorCount ≥ config.maxErrorCount) :
    (isAccountAvailableAcc config a t).1 = false := by
  unfold isAccountAvailableAcc
  rw [if_neg (by simp [h0]), if_neg (by simp [h0])]
  by_cases h2 : a.cooldownUntil ≠ 0 ∧ a.cooldownUntil > t
  · rw [if_pos h2]
  · rw [if_neg h2, if_pos h1]

/-- `recordError` preserves the configuration. -/
theorem recordError_config (p : AccountPool) (accountId : String)
    (c : ErrorType) (now : Int) :
    (recordError p accountId c now).config = p.config := by
  unfold recordError
  cases hm : mapGet p.accounts accountId with
  | none => rfl
  | some account =>
    dsimp only
    cases hs : statsGet p.accountStats accountId with
    | none => rfl
    | some stats => rfl

/-- `recordError` on a present id stores exactly the record dictated by the
classification switch (and touches `lastUsed`). -/
theorem recordError_get (p : AccountPool) (accountId : String) (c : ErrorType)
    (now : Int) (a : ProxyAccount) (h : mapGet p.accounts accountId = some a) :
    mapGet (recordError p accountId c now).accounts accountId =
      some { a with
        errorCount := (recordErrorSwitch p.config c now a.errorCount
          a.cooldownUntil a.autoRecoverAt a.isAvailable).1
        cooldownUntil := (recordErrorSwitch p.config c now a.errorCount
          a.cooldownUntil a.autoRecoverAt a.isAvailable).2.1
        autoRecoverAt := (recordErrorSwitch p.config c now a.errorCount
          a.cooldownUntil a.autoRecoverAt a.isAvailable).2.2.1
        isAvailable := (recordErrorSwitch p.config c now a.errorCount
          a.cooldownUntil a.autoRecoverAt a.isAvailable).2.2.2
        lastUsed := now } := by
  unfold recordError
  cases hm : mapGet p.accounts accountId with
  | none => rw [hm] at h; exact absurd h (by simp)
  | some account =>
    have hid : account.id = accountId := mapGet_id hm
    rw [hm] at h
    injection h with h2
    subst h2
    dsimp only
    cases hs : statsGet p.accountStats accountId with
    | none =>
      dsimp only
      rw [show accountId = account.id from hid.symm]
      exact mapGet_mapSet_self p.accounts _
    | some stats =>
      dsimp only
      rw [show accountId = account.id from hid.symm]
      exact mapGet_mapSet_self p.accounts _

/-- `recordSuccess` on a present id stores the success-updated record. -/
theorem recordSuccess_get (p : AccountPool) (accountId : String)
    (tokens now : Int) (a : ProxyAccount)
    (h : mapGet p.accounts accountId = some a) :
    mapGet (recordSuccess p accountId tokens now).accounts accountId =
      some { a with
        requestCount := a.requestCount + 1
        errorCount := 0
        lastUsed := now
        isAvailable := true } := by
  unfold recordSuccess
  cases hm : mapGet p.accounts accountId with
  | none => rw [hm] at h; exact absurd h (by simp)
  | some account =>
    have hid : account.id = accountId := mapGet_id hm
    rw [hm] at h
    injection h with h2
    subst h2
    dsimp only
    cases hs : statsGet p.accountStats accountId with
    | none =>
      dsimp only
      rw [show accountId = account.id from hid.symm]
      exact mapGet_mapSet_self p.accounts _
    | some stats =>
      dsimp only
      rw [show accountId = account.id from hid.symm]
      exact mapGet_mapSet_self p.accounts _

end AccountPool

namespace AccountPool

/-- The selection fold, started from a recorded best pair, ends on a pair
whose wait matches its account, drawn from the initial pair or the scanned
list, and minimal among them. -/
theorem shortestFold_min (now : Int) :
    ∀ (l : List ProxyAccount) (b : ProxyAccount),
      ∃ c, l.foldl (shortestStep now) (some (b, max 0 (b.cooldownUntil - now))) =
          some (c, max 0 (c.cooldownUntil - now)) ∧
        (c = b ∨ c ∈ l) ∧
        max 0 (c.cooldownUntil - now) ≤ max 0 (b.cooldownUntil - now) ∧
        ∀ a ∈ l, max 0 (c.cooldownUntil - now) ≤ max 0 (a.cooldownUntil - now)
  | [], b => ⟨b, rfl, Or.inl rfl, le_refl _, by simp⟩
  | x :: t, b => by
    by_cases hx : max 0 (x.cooldownUntil - now) < max 0 (b.cooldownUntil - now)
    · have hstep : shortestStep now (some (b, max 0 (b.cooldownUntil - now))) x
          = some (x, max 0 (x.cooldownUntil - now)) := by
        simp [shortestStep, hx]
      obtain ⟨c, hc, hmem, hle, hall⟩ := shortestFold_min now t x
      refine ⟨c, ?_, ?_, ?_, ?_⟩
      · rw [List.foldl_cons, hstep]
        exact hc
      · rcases hmem with h | h
        · exact Or.inr (by simp [h])
        · exact Or.inr (List.mem_cons_of_mem _ h)
      · exact le_trans hle (le_of_lt hx)
      · intro a ha
        rcases List.mem_cons.mp ha with rfl | ha
        · exact hle
        · exact hall a ha
    · have hstep : shortestStep now (some (b, max 0 (b.cooldownUntil - now))) x
          = some (b, max 0 (b.cooldownUntil - now)) := by
        simp [shortestStep, hx]
      obtain ⟨c, hc, hmem, hle, hall⟩ := shortestFold_min now t b
      refine ⟨c, ?_, ?_, ?_, ?_⟩
      · rw [List.foldl_cons, hstep]
        exact hc
      · rcases hmem with h | h
        · exact Or.inl h
        · exact Or.inr (List.mem_cons_of_mem _ h)
      · exact hle
      · intro a ha
        rcases List.mem_cons.mp ha with rfl | ha
        · exact le_trans hle (le_of_not_lt hx)
        · exact hall a ha

/-- On a non-empty list, `getAccountWithShortestCooldown` returns a member
of minimal `max(0, cooldownUntil - now)`. -/
theorem shortestCooldown_spec (l : List ProxyAccount) (now : Int)
    (hne : l ≠ []) :
    ∃ b, getAccountWithShortestCooldown l now = some b ∧ b ∈ l ∧
      ∀ a ∈ l, max 0 (b.cooldownUntil - now) ≤ max 0 (a.cooldownUntil - now) := by
  match l, hne with
  | x :: t, _ =>
    obtain ⟨c, hc, hmem, hle, hall⟩ := shortestFold_min now t x
    refine ⟨c, ?_, ?_, ?_⟩
    · unfold getAccountWithShortestCooldown
      rw [List.foldl_cons, show shortestStep now none x
          = some (x, max 0 (x.cooldownUntil - now)) from rfl, hc]
      rfl
    · rcases hmem with h | h
      · simp [h]
      · exact List.mem_cons_of_mem _ h
    · intro a ha
      rcases List.mem_cons.mp ha with rfl | ha
      · exact hle
      · exact hall a ha

end AccountPool

namespace AccountPool

/-- From any in-range cursor, the selection loop over a non-empty snapshot
always produces some account (found or fallback). -/
theorem getNextAccountLoop_nonempty (l : List ProxyAccount) (now : Int)
    (hne : l ≠ []) :
    ∀ (r : Nat) (p : AccountPool), p.currentIndex < l.length →
      ∃ a p1, getNextAccountLoop l now r p = Except.ok (some a, p1)
  | 0, p, _ => by
    obtain ⟨b, hb, _, _⟩ := shortestCooldown_spec l now hne
    exact ⟨b, p, by simp [getNextAccountLoop, hb]⟩
  | r + 1, p, hi => by
    have hget : l.get? p.currentIndex = some (l.get ⟨p.currentIndex, hi⟩) :=
      List.get?_eq_get hi
    have hlen : 0 < l.length := lt_of_le_of_lt (Nat.zero_le _) hi
    rw [getNextAccountLoop, hget]
    dsimp only
    rcases hv : isAccountAvailable
        { p with currentIndex := (p.currentIndex + 1) % l.length }
        (l.get ⟨p.currentIndex, hi⟩) now with ⟨ok, p2⟩
    cases ok
    · have hidx := isAccountAvailable_currentIndex
        { p with currentIndex := (p.currentIndex + 1) % l.length }
        (l.get ⟨p.currentIndex, hi⟩) now
      rw [hv] at hidx
      have hcur : p2.currentIndex < l.length := by
        simp only at hidx
        rw [hidx]
        exact Nat.mod_lt _ hlen
      exact getNextAccountLoop_nonempty l now hne r p2 hcur
    · exact ⟨l.get ⟨p.currentIndex, hi⟩, p2, rfl⟩

/-- When every snapshot account fails the availability predicate, the loop
runs to exhaustion and yields the shortest-cooldown fallback. -/
theorem getNextAccountLoop_unavail (l : List ProxyAccount) (now : Int)
    (cfg : AccountPoolConfig)
    (hl : ∀ a ∈ l, (isAccountAvailableAcc cfg a now).1 = false) :
    ∀ (r : Nat) (p : AccountPool), p.config = cfg →
      p.currentIndex < l.length →
      ∃ p1, getNextAccountLoop l now r p =
        Except.ok (getAccountWithShortestCooldown l now, p1)
  | 0, p, _, _ => ⟨p, by simp [getNextAccountLoop]⟩
  | r + 1, p, hcfg, hi => by
    have hget : l.get? p.currentIndex = some (l.get ⟨p.currentIndex, hi⟩) :=
      List.get?_eq_get hi
    have hlen : 0 < l.length := lt_of_le_of_lt (Nat.zero_le _) hi
    have hfalse : (isAccountAvailableAcc cfg (l.get ⟨p.currentIndex, hi⟩) now).1
        = false := hl _ (List.get_mem l _ hi)
    have hav : isAccountAvailable
        { p with currentIndex := (p.currentIndex + 1) % l.length }
        (l.get ⟨p.currentIndex, hi⟩) now
        = (false, { p with currentIndex := (p.currentIndex + 1) % l.length }) := by
      apply isAccountAvailable_of_acc_false
      show (isAccountAvailableAcc p.config _ now).1 = false
      rw [hcfg]
      exact hfalse
    rw [getNextAccountLoop, hget]
    dsimp only
    rw [hav]
    exact getNextAccountLoop_unavail l now cfg hl r
      { p with currentIndex := (p.currentIndex + 1) % l.length }
      hcfg (Nat.mod_lt _ hlen)

end AccountPool

namespace AccountPool

/-- One unfolding of the selection loop when the inspected account passes
the availability predicate without a write-back. -/
theorem getNextAccountLoop_step (l : List ProxyAccount) (now : Int) (r : Nat)
    (p : AccountPool) (hi : p.currentIndex < l.length)
    (hav : isAccountAvailable
        { p with currentIndex := (p.currentIndex + 1) % l.length }
        (l.get ⟨p.currentIndex, hi⟩) now
      = (true, { p with currentIndex := (p.currentIndex + 1) % l.length })) :
    getNextAccountLoop l now (r + 1) p = Except.ok
      (some (l.get ⟨p.currentIndex, hi⟩),
       { p with currentIndex := (p.currentIndex + 1) % l.length }) := by
  rw [getNextAccountLoop, List.get?_eq_get hi]
  dsimp only
  rw [hav]

/-- On a pool whose accounts all pass the availability predicate with no
write-back, `getNextAccount` returns the account under the cursor and only
advances the cursor. -/
theorem getNextAccount_fresh_step (p : AccountPool) (now : Int)
    (hfresh : ∀ a ∈ p.accounts, isAccountAvailableAcc p.config a now = (true, none))
    (hi : p.currentIndex < p.accounts.length) :
    getNextAccount p now = Except.ok
      (some (p.accounts.get ⟨p.currentIndex, hi⟩),
       { p with currentIndex := (p.currentIndex + 1) % p.accounts.length }) := by
  have hlen : 0 < p.accounts.length := lt_of_le_of_lt (Nat.zero_le _) hi
  have hav : isAccountAvailable
      { p with currentIndex := (p.currentIndex + 1) % p.accounts.length }
      (p.accounts.get ⟨p.currentIndex, hi⟩) now
      = (true, { p with currentIndex := (p.currentIndex + 1) % p.accounts.length }) := by
    apply isAccountAvailable_of_acc_true_none
    show isAccountAvailableAcc p.config _ now = (true, none)
    exact hfresh _ (List.get_mem p.accounts _ hi)
  obtain ⟨r, hr⟩ : ∃ r, p.accounts.length = r + 1 := ⟨p.accounts.length - 1, by omega⟩
  unfold getNextAccount
  rw [if_neg (by omega)]
  conv_lhs => rw [hr]
  exact getNextAccountLoop_step p.accounts now r p hi hav

/-- Running `n` consecutive selections over an all-fresh pool, with the
cursor not wrapping before the last call, returns the accounts in list
order from the cursor and moves the cursor by `n` modulo the length. -/
theorem selectMany_fresh (now : Int) :
    ∀ (n : Nat) (p : AccountPool),
      (∀ a ∈ p.accounts, isAccountAvailableAcc p.config a now = (true, none)) →
      p.currentIndex < p.accounts.length →
      p.currentIndex + n ≤ p.accounts.length →
      selectMany now n p = Except.ok
        (((p.accounts.drop p.currentIndex).take n).map some,
         { p with currentIndex := (p.currentIndex + n) % p.accounts.length })
  | 0, p, hfresh, hi, hn => by
    have h0 : (p.currentIndex + 0) % p.accounts.length = p.currentIndex := by
      rw [Nat.add_zero]
      exact Nat.mod_eq_of_lt hi
    rw [selectMany, h0]
    rfl
  | n + 1, p, hfresh, hi, hn => by
    have hlen : 0 < p.accounts.length := lt_of_le_of_lt (Nat.zero_le _) hi
    have hdrop : p.accounts.drop p.currentIndex
        = p.accounts.get ⟨p.currentIndex, hi⟩ :: p.accounts.drop (p.currentIndex + 1) := by
      rw [List.get_eq_getElem]
      exact (List.getElem_cons_drop p.accounts p.currentIndex hi).symm
    rw [selectMany, getNextAccount_fresh_step p now hfresh hi]
    dsimp only
    have hi1 : (p.currentIndex + 1) % p.accounts.length < p.accounts.length :=
      Nat.mod_lt _ hlen
    by_cases hwrap : p.currentIndex + 1 < p.accounts.length
    · have hmod : (p.currentIndex + 1) % p.accounts.length = p.currentIndex + 1 :=
        Nat.mod_eq_of_lt hwrap
      have hIH := selectMany_fresh now n
        { p with currentIndex := (p.currentIndex + 1) % p.accounts.length }
        (fun a ha => hfresh a ha) hi1 (by simp only [hmod]; omega)
      rw [hIH]
      dsimp only
      rw [hmod, hdrop, List.take_succ_cons, List.map_cons]
      have hadd : p.currentIndex + 1 + n = p.currentIndex + (n + 1) := by omega
      rw [hadd]
    · have hend : p.currentIndex + 1 = p.accounts.length := by omega
      have hn0 : n = 0 := by omega
      subst hn0
      have hIH := selectMany_fresh now 0
        { p with currentIndex := (p.currentIndex + 1) % p.accounts.length }
        (fun a ha => hfresh a ha) hi1 (le_of_lt hi1)
      rw [hIH]
      dsimp only
      rw [hdrop, List.take_succ_cons, List.map_cons]
      have hz : ((p.currentIndex + 1) % p.accounts.length + 0) % p.accounts.length
          = (p.currentIndex + 1) % p.accounts.length := by
        rw [Nat.add_zero]
        exact Nat.mod_eq_of_lt hi1
      rw [hz]
      simp only [List.take_zero, List.map_nil, Nat.zero_add]

end AccountPool

namespace AccountPool

/-- C7: token-expiry boundary of the availability predicate: with no
cooldown, no auto-recover deadline, `errorCount` below the maximum and
`isAvailable` true, an account whose (set, hence nonzero) `expiresAt`
equals `now - expiryGracePeriodMs - 1` is unavailable, while one whose
(set) `expiresAt` equals `now - expiryGracePeriodMs + 1` is available. -/
theorem spec_C7 (config : AccountPoolConfig) (a b : ProxyAccount) (now : Int)
    (ha1 : a.autoRecoverAt = 0) (ha2 : a.cooldownUntil = 0)
    (ha3 : a.errorCount < config.maxErrorCount) (ha4 : a.isAvailable = true)
    (ha5 : a.expiresAt = now - config.expiryGracePeriodMs - 1)
    (ha6 : a.expiresAt ≠ 0)
    (hb1 : b.autoRecoverAt = 0) (hb2 : b.cooldownUntil = 0)
    (hb3 : b.errorCount < config.maxErrorCount) (hb4 : b.isAvailable = true)
    (hb5 : b.expiresAt = now - config.expiryGracePeriodMs + 1)
    (hb6 : b.expiresAt ≠ 0) :
    (isAccountAvailableAcc config a now).1 = false ∧
    (isAccountAvailableAcc config b now).1 = true := by
  constructor
  · unfold isAccountAvailableAcc
    rw [if_neg (by simp [ha1]), if_neg (by simp [ha1]), if_neg (by simp [ha2]),
      if_neg (by omega), if_pos ⟨ha6, by omega⟩]
  · unfold isAccountAvailableAcc
    rw [if_neg (by simp [hb1]), if_neg (by simp [hb1]), if_neg (by simp [hb2]),
      if_neg (by omega), if_neg (by rintro ⟨hx, hlt⟩; omega), hb4]

/-- C7 witness: the boundary at `now = 1000000` with the default grace
period of 60000: expiry 939999 is rejected, expiry 940001 accepted. -/
theorem spec_C7_witness :
    (isAccountAvailableAcc DEFAULT_CONFIG
      { freshAccount "p" with expiresAt := 939999 } 1000000).1 = false ∧
    (isAccountAvailableAcc DEFAULT_CONFIG
      { freshAccount "q" with expiresAt := 940001 } 1000000).1 = true :=
  spec_C7 DEFAULT_CONFIG
    { freshAccount "p" with expiresAt := 939999 }
    { freshAccount "q" with expiresAt := 940001 } 1000000
    rfl rfl (by decide) rfl (by decide) (by decide)
    rfl rfl (by decide) rfl (by decide) (by decide)

/-- C6: `errorCount` is bumped by exactly 1 only by `server` and `unknown`
classifications and unchanged by `quota`, `auth` and `network`; it is
reset to 0 by every `recordSuccess` on a present id and by every
auto-recovery inside the availability predicate. -/
theorem spec_C6 :
    (∀ (p : AccountPool) (accountId : String) (c : ErrorType) (now : Int)
        (a : ProxyAccount), mapGet p.accounts accountId = some a →
      ∃ a1, mapGet (recordError p accountId c now).accounts accountId = some a1 ∧
        a1.errorCount =
          (if c = ErrorType.server ∨ c = ErrorType.unknown then a.errorCount + 1
           else a.errorCount)) ∧
    (∀ (p : AccountPool) (accountId : String) (tokens now : Int)
        (a : ProxyAccount), mapGet p.accounts accountId = some a →
      ∃ a1, mapGet (recordSuccess p accountId tokens now).accounts accountId
          = some a1 ∧ a1.errorCount = 0) ∧
    (∀ (config : AccountPoolConfig) (a : ProxyAccount) (now : Int),
      a.autoRecoverAt ≠ 0 → a.autoRecoverAt ≤ now →
      ∃ a1, (isAccountAvailableAcc config a now).2 = some a1 ∧
        a1.errorCount = 0) := by
  refine ⟨?_, ?_, ?_⟩
  · intro p accountId c now a h
    refine ⟨_, recordError_get p accountId c now a h, ?_⟩
    cases c <;> simp [recordErrorSwitch]
  · intro p accountId tokens now a h
    exact ⟨_, recordSuccess_get p accountId tokens now a h, rfl⟩
  · intro config a now h0 h1
    refine ⟨{ a with
      isAvailable := true
      autoRecoverAt := 0
      errorCount := 0
      cooldownUntil := 0 }, ?_, rfl⟩
    rw [availAcc_due config a now h0 h1]

/-- C6 witness: a `server` error bumps the count on a one-account pool, a
success resets it, and a due auto-recovery resets it. -/
theorem spec_C6_witness :
    (∃ a1, mapGet (recordError (addAccount (empty DEFAULT_CONFIG)
          (freshAccount "s")) "s" ErrorType.server 50).accounts "s" = some a1 ∧
      a1.errorCount = (if ErrorType.server = ErrorType.server ∨
          ErrorType.server = ErrorType.unknown
        then (freshAccount "s").errorCount + 1
        else (freshAccount "s").errorCount)) ∧
    (∃ a1, mapGet (recordSuccess (addAccount (empty DEFAULT_CONFIG)
          (freshAccount "s")) "s" 7 50).accounts "s" = some a1 ∧
      a1.errorCount = 0) ∧
    (∃ a1, (isAccountAvailableAcc DEFAULT_CONFIG
        { freshAccount "t" with autoRecoverAt := 5, errorCount := 2 } 10).2
          = some a1 ∧ a1.errorCount = 0) :=
  ⟨spec_C6.1 (addAccount (empty DEFAULT_CONFIG) (freshAccount "s")) "s"
      ErrorType.server 50 (freshAccount "s") (by decide),
   spec_C6.2.1 (addAccount (empty DEFAULT_CONFIG) (freshAccount "s")) "s"
      7 50 (freshAccount "s") (by decide),
   spec_C6.2.2 DEFAULT_CONFIG
      { freshAccount "t" with autoRecoverAt := 5, errorCount := 2 } 10
      (by decide) (by decide)⟩

/-- C8: `recordSuccess` on a present id resets `errorCount` to 0 and sets
`isAvailable := true`, leaves `cooldownUntil`, `autoRecoverAt`, `expiresAt`
and `id` unchanged, bumps `requestCount` and stamps `lastUsed`; an
unexpired cooldown still makes the availability predicate reject the
account afterwards. -/
theorem spec_C8 (p : AccountPool) (accountId : String) (tokens now : Int)
    (a : ProxyAccount) (h : mapGet p.accounts accountId = some a) :
    ∃ a1, mapGet (recordSuccess p accountId tokens now).accounts accountId
        = some a1 ∧
      a1.errorCount = 0 ∧ a1.isAvailable = true ∧
      a1.cooldownUntil = a.cooldownUntil ∧ a1.autoRecoverAt = a.autoRecoverAt ∧
      a1.expiresAt = a.expiresAt ∧ a1.id = a.id ∧
      a1.requestCount = a.requestCount + 1 ∧ a1.lastUsed = now ∧
      (∀ t, a.autoRecoverAt = 0 → a.cooldownUntil ≠ 0 → t < a.cooldownUntil →
        (isAccountAvailableAcc p.config a1 t).1 = false) := by
  refine ⟨_, recordSuccess_get p accountId tokens now a h,
    rfl, rfl, rfl, rfl, rfl, rfl, rfl, rfl, ?_⟩
  intro t h0 hc ht
  unfold isAccountAvailableAcc
  rw [if_neg (show ¬ (a.autoRecoverAt ≠ 0 ∧ a.autoRecoverAt ≤ t) by simp [h0]),
    if_neg (show ¬ (a.autoRecoverAt ≠ 0 ∧ a.autoRecoverAt > t) by simp [h0]),
    if_pos (show a.cooldownUntil ≠ 0 ∧ a.cooldownUntil > t from ⟨hc, ht⟩)]

/-- C8 witness: success on an account still cooling until 500, reported at
time 100. -/
theorem spec_C8_witness :
    ∃ a1, mapGet (recordSuccess
        { empty DEFAULT_CONFIG with
          accounts := [{ freshAccount "w" with cooldownUntil := 500 }] }
        "w" 7 100).accounts "w" = some a1 ∧
      a1.errorCount = 0 ∧ a1.isAvailable = true ∧
      a1.cooldownUntil = ({ freshAccount "w" with cooldownUntil := 500 } : ProxyAccount).cooldownUntil ∧
      a1.autoRecoverAt = ({ freshAccount "w" with cooldownUntil := 500 } : ProxyAccount).autoRecoverAt ∧
      a1.expiresAt = ({ freshAccount "w" with cooldownUntil := 500 } : ProxyAccount).expiresAt ∧
      a1.id = ({ freshAccount "w" with cooldownUntil := 500 } : ProxyAccount).id ∧
      a1.requestCount = ({ freshAccount "w" with cooldownUntil := 500 } : ProxyAccount).requestCount + 1 ∧
      a1.lastUsed = 100 ∧
      (∀ t, ({ freshAccount "w" with cooldownUntil := 500 } : ProxyAccount).autoRecoverAt = 0 →
        ({ freshAccount "w" with cooldownUntil := 500 } : ProxyAccount).cooldownUntil ≠ 0 →
        t < ({ freshAccount "w" with cooldownUntil := 500 } : ProxyAccount).cooldownUntil →
        (isAccountAvailableAcc ({ empty DEFAULT_CONFIG with
          accounts := [{ freshAccount "w" with cooldownUntil := 500 }] } : AccountPool).config a1 t).1 = false) :=
  spec_C8
    { empty DEFAULT_CONFIG with
      accounts := [{ freshAccount "w" with cooldownUntil := 500 }] }
    "w" 7 100 { freshAccount "w" with cooldownUntil := 500 } (by decide)

end AccountPool

namespace AccountPool

/-- C9 counterexample: on a pool whose account "b" took an `auth` error at
time 1 (so `autoRecoverAt = 300001`), calling the diagnostics accessor at
time 300002 mutates the pool: the embedded availability check performs the
auto-recovery write-back, contradicting the claim that the accessor leaves
the entire pool state unchanged. -/
theorem spec_C9_counterexample :
    (getAccountDiagnostics c9pool "b" 300002).2 ≠ c9pool := by decide

/-- C9 (amended): the diagnostics accessor leaves the pool unchanged
whenever the queried account is absent, or its `autoRecoverAt` is unset or
still in the future; only a due auto-recovery makes it write. -/
theorem spec_C9 (p : AccountPool) (accountId : String) (now : Int)
    (h : ∀ a, mapGet p.accounts accountId = some a →
      a.autoRecoverAt = 0 ∨ now < a.autoRecoverAt) :
    (getAccountDiagnostics p accountId now).2 = p := by
  unfold getAccountDiagnostics
  cases hm : mapGet p.accounts accountId with
  | none => rfl
  | some account =>
    dsimp only
    have hnone : (isAccountAvailableAcc p.config account now).2 = none := by
      apply availAcc_not_due_none
      rcases h account hm with h0 | h0
      · rintro ⟨hx, _⟩; exact hx h0
      · rintro ⟨_, hle⟩; omega
    have hav : isAccountAvailable p account now
        = ((isAccountAvailableAcc p.config account now).1, p) := by
      unfold isAccountAvailable
      rcases hv : isAccountAvailableAcc p.config account now with ⟨b, o⟩
      rw [hv] at hnone
      simp only at hnone
      subst hnone
      rfl
    rw [hav]

/-- C9 witness: diagnostics on a fresh account (no auto-recover deadline)
at time 10 returns the pool unchanged. -/
theorem spec_C9_witness :
    (getAccountDiagnostics (addAccount (empty DEFAULT_CONFIG)
      (freshAccount "c")) "c" 10).2
      = addAccount (empty DEFAULT_CONFIG) (freshAccount "c") :=
  spec_C9 (addAccount (empty DEFAULT_CONFIG) (freshAccount "c")) "c" 10
    (fun a ha => by
      have he : mapGet (addAccount (empty DEFAULT_CONFIG)
          (freshAccount "c")).accounts "c" = some (freshAccount "c") := by decide
      rw [he] at ha
      injection ha with h2
      subst h2
      left
      rfl)

/-- C10: when no account passes the availability predicate, the fallback
ranks only by `max(0, cooldownUntil - now)`: if some account has wait 0
(for example no cooldown set but a pending `autoRecoverAt`, an exhausted
`errorCount`, or an expired token), `getNextAccount` returns an account of
wait 0, ahead of every account whose cooldown expires strictly later. -/
theorem spec_C10 (p : AccountPool) (now : Int)
    (hcur : p.currentIndex < p.accounts.length)
    (hunavail : ∀ a ∈ p.accounts, (isAccountAvailableAcc p.config a now).1 = false)
    (hzero : ∃ a ∈ p.accounts, max 0 (a.cooldownUntil - now) = 0) :
    ∃ b p1, getNextAccount p now = Except.ok (some b, p1) ∧ b ∈ p.accounts ∧
      max 0 (b.cooldownUntil - now) = 0 ∧
      ∀ a ∈ p.accounts, max 0 (b.cooldownUntil - now)
        ≤ max 0 (a.cooldownUntil - now) := by
  have hne : p.accounts ≠ [] := by
    intro he
    rw [he] at hcur
    simp at hcur
  obtain ⟨p1, hp1⟩ := getNextAccountLoop_unavail p.accounts now p.config
    hunavail p.accounts.length p rfl hcur
  obtain ⟨b, hb, hmem, hmin⟩ := shortestCooldown_spec p.accounts now hne
  refine ⟨b, p1, ?_, hmem, ?_, hmin⟩
  · unfold getNextAccount
    rw [if_neg (by omega), hp1, hb]
  · obtain ⟨a, hamem, ha0⟩ := hzero
    have hle := hmin a hamem
    rw [ha0] at hle
    exact le_antisymm hle (le_max_left 0 _)

/-- C10 witness: account x cools until 1100, account y has no cooldown but
three consecutive errors; at time 1000 neither is available, and selection
returns y through the fallback. -/
theorem spec_C10_witness :
    ∃ b p1, getNextAccount c10pool 1000 = Except.ok (some b, p1) ∧
      b ∈ c10pool.accounts ∧
      max 0 (b.cooldownUntil - 1000) = 0 ∧
      ∀ a ∈ c10pool.accounts, max 0 (b.cooldownUntil - 1000)
        ≤ max 0 (a.cooldownUntil - 1000) :=
  spec_C10 c10pool 1000 (by decide) (by decide) (by decide)

end AccountPool

namespace AccountPool

/-- C2 counterexample: with the default configuration, three consecutive
`unknown` errors on a fresh account (at times 1000, 2000, 3000) set
`errorCount = 3` and `cooldownUntil = 63000`; at time 63001 — after
`now + cooldownMs` has elapsed — the availability predicate still answers
unavailable, contrary to the claim that the account is then selectable
again by the predicate. -/
theorem spec_C2_counterexample :
    (match mapGet c2pool3.accounts "a" with
     | some a => (isAccountAvailableAcc DEFAULT_CONFIG a 63001).1
     | none => true) = false := by decide

/-- C2 (amended): three consecutive `unknown` recordError calls on an
account with `errorCount = 0` and no auto-recover deadline (with
`maxErrorCount = 3`) set `errorCount = 3` and `cooldownUntil =
now + cooldownMs`, make the predicate reject the account at every time
before the cooldown expiry, and keep rejecting it at every time after as
well, because `errorCount ≥ maxErrorCount` independently vetoes
availability until a success, reset or auto-recovery clears it. -/
theorem spec_C2 (p : AccountPool) (accountId : String) (a : ProxyAccount)
    (t1 t2 t3 : Int) (h : mapGet p.accounts accountId = some a)
    (hec : a.errorCount = 0) (har : a.autoRecoverAt = 0)
    (hmax : p.config.maxErrorCount = 3) :
    ∃ a3, mapGet (recordError (recordError (recordError p accountId
        ErrorType.unknown t1) accountId ErrorType.unknown t2) accountId
        ErrorType.unknown t3).accounts accountId = some a3 ∧
      a3.errorCount = 3 ∧
      a3.cooldownUntil = t3 + p.config.cooldownMs ∧
      (∀ t, t < t3 + p.config.cooldownMs →
        (isAccountAvailableAcc p.config a3 t).1 = false) ∧
      (∀ t, t3 + p.config.cooldownMs ≤ t →
        (isAccountAvailableAcc p.config a3 t).1 = false) := by
  have h1 := recordError_get p accountId ErrorType.unknown t1 a h
  have h2 := recordError_get _ accountId ErrorType.unknown t2 _ h1
  have h3 := recordError_get _ accountId ErrorType.unknown t3 _ h2
  have hc1 : (recordError p accountId ErrorType.unknown t1).config = p.config :=
    recordError_config p accountId ErrorType.unknown t1
  have hc2 : (recordError (recordError p accountId ErrorType.unknown t1)
      accountId ErrorType.unknown t2).config = p.config := by
    rw [recordError_config, hc1]
  have har3 : (show ProxyAccount from
      { a with
        errorCount := a.errorCount + 1 + 1 + 1
        cooldownUntil := t3 + p.config.cooldownMs
        autoRecoverAt := a.autoRecoverAt
        isAvailable := a.isAvailable
        lastUsed := t3 }).autoRecoverAt = 0 := har
  refine ⟨_, h3, ?_, ?_, ?_, ?_⟩
  · show a.errorCount + 1 + 1 + 1 = 3
    omega
  · show (if a.errorCount + 1 + 1 + 1 ≥ (recordError (recordError p accountId
        ErrorType.unknown t1) accountId ErrorType.unknown t2).config.maxErrorCount
      then t3 + (recordError (recordError p accountId ErrorType.unknown t1)
        accountId ErrorType.unknown t2).config.cooldownMs
      else (if a.errorCount + 1 + 1 ≥ (recordError p accountId
          ErrorType.unknown t1).config.maxErrorCount
        then t2 + (recordError p accountId ErrorType.unknown t1).config.cooldownMs
        else (if a.errorCount + 1 ≥ p.config.maxErrorCount
          then t1 + p.config.cooldownMs
          else a.cooldownUntil)))
      = t3 + p.config.cooldownMs
    rw [hc2, if_pos (by omega)]
  · intro t ht
    apply availAcc_errorLimited
    · show a.autoRecoverAt = 0
      exact har
    · show a.errorCount + 1 + 1 + 1 ≥ p.config.maxErrorCount
      omega
  · intro t ht
    apply availAcc_errorLimited
    · show a.autoRecoverAt = 0
      exact har
    · show a.errorCount + 1 + 1 + 1 ≥ p.config.maxErrorCount
      omega

/-- C2 witness: the three-error scenario on the one-account pool used by
the counterexample, with the default configuration. -/
theorem spec_C2_witness :
    ∃ a3, mapGet (recordError (recordError (recordError c2pool0 "a"
        ErrorType.unknown 1000) "a" ErrorType.unknown 2000) "a"
        ErrorType.unknown 3000).accounts "a" = some a3 ∧
      a3.errorCount = 3 ∧
      a3.cooldownUntil = 3000 + c2pool0.config.cooldownMs ∧
      (∀ t, t < 3000 + c2pool0.config.cooldownMs →
        (isAccountAvailableAcc c2pool0.config a3 t).1 = false) ∧
      (∀ t, 3000 + c2pool0.config.cooldownMs ≤ t →
        (isAccountAvailableAcc c2pool0.config a3 t).1 = false) :=
  spec_C2 c2pool0 "a" (freshAccount "a") 1000 2000 3000
    (by decide) (by decide) (by decide) (by decide)

/-- C5: an `auth`-classified recordError at `now` makes the availability
predicate reject the account at every time strictly before
`now + autoRecoverMs`, and at every time at or after that deadline the
predicate answers available and writes the record back into the pool with
`errorCount = 0`, with no explicit reset call. -/
theorem spec_C5 (p : AccountPool) (accountId : String) (a : ProxyAccount)
    (now : Int) (h : mapGet p.accounts accountId = some a)
    (hpos : 0 < now + p.config.autoRecoverMs) :
    ∃ a1, mapGet (recordError p accountId ErrorType.auth now).accounts
        accountId = some a1 ∧
      (∀ t, t < now + p.config.autoRecoverMs →
        (isAccountAvailableAcc p.config a1 t).1 = false) ∧
      (∀ t, now + p.config.autoRecoverMs ≤ t →
        (isAccountAvailableAcc p.config a1 t).1 = true ∧
        ∃ a2, mapGet (isAccountAvailable
            (recordError p accountId ErrorType.auth now) a1 t).2.accounts
            accountId = some a2 ∧ a2.errorCount = 0) := by
  have hid : a.id = accountId := mapGet_id h
  refine ⟨{ a with
      errorCount := a.errorCount
      cooldownUntil := a.cooldownUntil
      autoRecoverAt := now + p.config.autoRecoverMs
      isAvailable := false
      lastUsed := now }, recordError_get p accountId ErrorType.auth now a h,
    ?_, ?_⟩
  · intro t ht
    rw [availAcc_pending p.config _ t
      (show now + p.config.autoRecoverMs ≠ 0 by omega)
      (show t < now + p.config.autoRecoverMs from ht)]
  · intro t ht
    have hdue := availAcc_due p.config
      { a with
        errorCount := a.errorCount
        cooldownUntil := a.cooldownUntil
        autoRecoverAt := now + p.config.autoRecoverMs
        isAvailable := false
        lastUsed := now } t
      (show now + p.config.autoRecoverMs ≠ 0 by omega)
      (show now + p.config.autoRecoverMs ≤ t from ht)
    constructor
    · rw [hdue]
    · refine ⟨{ a with
        errorCount := 0
        cooldownUntil := 0
        autoRecoverAt := 0
        isAvailable := true
        lastUsed := now }, ?_, rfl⟩
      unfold isAccountAvailable
      rw [show (recordError p accountId ErrorType.auth now).config = p.config
          from recordError_config p accountId ErrorType.auth now, hdue]
      dsimp only
      rw [show accountId = a.id from hid.symm]
      exact mapGet_mapSet_self _ _

/-- C5 witness: an `auth` error on a fresh one-account pool at time 1000
with the default configuration. -/
theorem spec_C5_witness :
    ∃ a1, mapGet (recordError (addAccount (empty DEFAULT_CONFIG)
        (freshAccount "v")) "v" ErrorType.auth 1000).accounts "v" = some a1 ∧
      (∀ t, t < 1000 + (addAccount (empty DEFAULT_CONFIG)
          (freshAccount "v")).config.autoRecoverMs →
        (isAccountAvailableAcc (addAccount (empty DEFAULT_CONFIG)
          (freshAccount "v")).config a1 t).1 = false) ∧
      (∀ t, 1000 + (addAccount (empty DEFAULT_CONFIG)
          (freshAccount "v")).config.autoRecoverMs ≤ t →
        (isAccountAvailableAcc (addAccount (empty DEFAULT_CONFIG)
          (freshAccount "v")).config a1 t).1 = true ∧
        ∃ a2, mapGet (isAccountAvailable
            (recordError (addAccount (empty DEFAULT_CONFIG)
              (freshAccount "v")) "v" ErrorType.auth 1000) a1 t).2.accounts
            "v" = some a2 ∧ a2.errorCount = 0) :=
  spec_C5 (addAccount (empty DEFAULT_CONFIG) (freshAccount "v")) "v"
    (freshAccount "v") 1000 (by decide) (by decide)

end AccountPool

namespace AccountPool

/-- C3: the stale-cursor run. Register A, B, C; two selections move the
cursor to 2; removing C leaves a two-element list with the cursor still 2;
the next `getNextAccount` reads `accountList[2]` — `undefined` — before
any modulo, and the availability check on it throws. The cursor is NOT
kept inside `[0, number of accounts)` and the scan reads past the end of
the snapshot, as the modelled exception shows. -/
theorem spec_C3 :
    getNextAccount c3pool3 1000
      = Except.error "TypeError: cannot read properties of undefined" := by
  rfl

/-- C1: the null-return contract of the selectors. The first conjunct
shows the claim's universal form fails on the code: on a reachable
non-empty pool with a stale cursor (register A and B, select once, remove
B), `getNextAccount` throws instead of returning an account. The
remaining conjuncts prove the contract on every state with an in-range
cursor: an empty pool yields `none`; a non-empty pool yields some
account; `getNextAvailableAccount` yields `none` exactly on pools with at
most one account (given id-uniqueness, which the `Map` enforces). -/
theorem spec_C1 :
    (getNextAccount c1poolC 1000
      = Except.error "TypeError: cannot read properties of undefined") ∧
    (∀ (p : AccountPool) (now : Int), p.accounts = [] →
      getNextAccount p now = Except.ok (none, p)) ∧
    (∀ (p : AccountPool) (now : Int), p.accounts ≠ [] →
      p.currentIndex < p.accounts.length →
      ∃ a p1, getNextAccount p now = Except.ok (some a, p1)) ∧
    (∀ (p : AccountPool) (excludeAccountId : String) (now : Int),
      p.accounts.length ≤ 1 →
      getNextAvailableAccount p excludeAccountId now = (none, p)) ∧
    (∀ (p : AccountPool) (excludeAccountId : String) (now : Int),
      2 ≤ p.accounts.length → (p.accounts.map ProxyAccount.id).Nodup →
      ∃ a p1, getNextAvailableAccount p excludeAccountId now = (some a, p1)) := by
  refine ⟨by rfl, ?_, ?_, ?_, ?_⟩
  · intro p now h
    unfold getNextAccount
    rw [if_pos (by rw [h]; rfl)]
  · intro p now hne hi
    obtain ⟨a, p1, hp⟩ := getNextAccountLoop_nonempty p.accounts now hne
      p.accounts.length p hi
    refine ⟨a, p1, ?_⟩
    unfold getNextAccount
    rw [if_neg (fun h0 => hne (List.length_eq_zero.mp h0))]
    exact hp
  · intro p ex now h
    unfold getNextAvailableAccount
    rw [if_pos h]
  · intro p ex now hlen hnodup
    have hex : ∃ x ∈ p.accounts, ¬ x.id = ex := by
      match p.accounts, hlen, hnodup with
      | [], h, _ => simp at h
      | [x], h, _ => simp at h
      | x :: y :: t, _, hnd =>
        by_cases hx : x.id = ex
        · have h1 : x.id ∉ ((y :: t).map ProxyAccount.id) :=
            (List.nodup_cons.mp hnd).1
          refine ⟨y, by simp, fun hy => h1 ?_⟩
          rw [List.map_cons, show x.id = y.id from hx.trans hy.symm]
          exact List.mem_cons_self _ _
        · exact ⟨x, by simp, hx⟩
    obtain ⟨x, hxmem, hxne⟩ := hex
    have hne2 : p.accounts.filter (fun a => ¬ a.id = ex) ≠ [] := by
      apply List.ne_nil_of_mem (a := x)
      rw [List.mem_filter]
      exact ⟨hxmem, by simpa using hxne⟩
    obtain ⟨b, hb, _, _⟩ := shortestCooldown_spec _ now hne2
    unfold getNextAvailableAccount
    rw [if_neg (by omega)]
    dsimp only
    rcases hL : getNextAvailableLoop ex now p.accounts p with ⟨r, q⟩
    cases r with
    | some a => exact ⟨a, q, rfl⟩
    | none =>
      refine ⟨b, q, ?_⟩
      dsimp only
      rw [hb]

/-- C1 witness: the empty pool, a fresh two-account pool for selection,
and the two branches of the exclusion variant. -/
theorem spec_C1_witness :
    (getNextAccount (empty DEFAULT_CONFIG) 0
      = Except.ok (none, empty DEFAULT_CONFIG)) ∧
    (∃ a p1, getNextAccount c1demo 0 = Except.ok (some a, p1)) ∧
    (getNextAvailableAccount (empty DEFAULT_CONFIG) "A" 0
      = (none, empty DEFAULT_CONFIG)) ∧
    (∃ a p1, getNextAvailableAccount c1demo "D" 0 = (some a, p1)) :=
  ⟨spec_C1.2.1 (empty DEFAULT_CONFIG) 0 rfl,
   spec_C1.2.2.1 c1demo 0 (by decide) (by decide),
   spec_C1.2.2.2.1 (empty DEFAULT_CONFIG) "A" 0 (by decide),
   spec_C1.2.2.2.2 c1demo "D" 0 (by decide) (by decide)⟩

/-- C4: round-robin fairness. On a pool of N all-healthy accounts (no
errors, no cooldowns, no auto-recover deadlines, tokens unexpired,
`isAvailable` true) with the cursor at 0, N consecutive selections return
each account exactly once in insertion order, and the (N+1)-th call
returns the first account again. -/
theorem spec_C4 (p : AccountPool) (now : Int)
    (hcur : p.currentIndex = 0) (hne : p.accounts ≠ [])
    (hmax : 0 < p.config.maxErrorCount)
    (hfresh : ∀ a ∈ p.accounts, a.errorCount = 0 ∧ a.cooldownUntil = 0 ∧
      a.autoRecoverAt = 0 ∧
      (a.expiresAt = 0 ∨ now ≤ a.expiresAt + p.config.expiryGracePeriodMs) ∧
      a.isAvailable = true) :
    ∃ p1, selectMany now p.accounts.length p
        = Except.ok (p.accounts.map some, p1) ∧
      ∃ p2, getNextAccount p1 now = Except.ok (p.accounts.head?, p2) := by
  have hfr : ∀ a ∈ p.accounts,
      isAccountAvailableAcc p.config a now = (true, none) := by
    intro a ha
    obtain ⟨h1, h2, h3, h4, h5⟩ := hfresh a ha
    exact availAcc_fresh p.config a now h3 h2 (by omega) h4 h5
  have hlen : 0 < p.accounts.length := List.length_pos.mpr hne
  have hsel := selectMany_fresh now p.accounts.length p hfr (by omega) (by omega)
  rw [hcur] at hsel
  simp only [List.drop_zero, List.take_length, Nat.zero_add, Nat.mod_self] at hsel
  have hhead : p.accounts.head? = p.accounts.get? 0 := by
    rcases p.accounts with _ | ⟨x, t⟩
    · rfl
    · rfl
  have hstep := getNextAccount_fresh_step { p with currentIndex := 0 } now
    (fun a ha => hfr a ha) (show (0:Nat) < p.accounts.length from hlen)
  exact ⟨_, hsel, _, by rw [hstep, hhead, List.get?_eq_get hlen]⟩

/-- C4 witness: two fresh accounts A and B; two selections return A then
B, and a third returns A again. -/
theorem spec_C4_witness :
    ∃ p1, selectMany 1000 c4pool.accounts.length c4pool
        = Except.ok (c4pool.accounts.map some, p1) ∧
      ∃ p2, getNextAccount p1 1000 = Except.ok (c4pool.accounts.head?, p2) :=
  spec_C4 c4pool 1000 rfl (by decide) (by decide) (by decide)

end AccountPool
